import Mathlib

/-!
Verification of the HRV (heart-rate variability) analysis module.

The JavaScript source is shallowly embedded: JS numbers become real
numbers, `Math.round` becomes `jsRound` (floor of x + 1/2, the half-up
semantics of the JS builtin), arrays become lists, JS `null` becomes
`Option.none`, and a raw table cell (which may be non-numeric) becomes a
`JSVal`.  Each analyzer from the source is translated definition by
definition; `spec…` definitions restate the natural-language
specification and are proved equal to the translated code.
-/

namespace HRV

noncomputable section

/-- JS `Math.round`: round to the nearest integer, halves toward positive
infinity, i.e. `⌊x + 1/2⌋`. -/
def jsRound (x : ℝ) : ℤ := ⌊x + 1 / 2⌋

/-- JS `Math.round(x * 10) / 10`: round to 1 decimal place. -/
def round1 (x : ℝ) : ℝ := (jsRound (x * 10) : ℝ) / 10

/-- JS `Math.round(x * 100) / 100`: round to 2 decimal places. -/
def round2 (x : ℝ) : ℝ := (jsRound (x * 100) : ℝ) / 100

/-- JS `Math.round(x * 1000) / 1000`: round to 3 decimal places. -/
def round3 (x : ℝ) : ℝ := (jsRound (x * 1000) : ℝ) / 1000

/-- Arithmetic mean of a list, `reduce((sum, val) => sum + val, 0) / length`
in the source.  Division by zero (empty list) yields 0, as real division. -/
def listMean (l : List ℝ) : ℝ := l.sum / l.length

/-- JS `Math.min(...l)` for a nonempty list; 0 for the empty list (the
source only applies it to nonempty lists). -/
def listMin : List ℝ → ℝ
  | [] => 0
  | x :: xs => xs.foldl min x

/-- JS `Math.max(...l)` for a nonempty list; 0 for the empty list (the
source only applies it to nonempty lists). -/
def listMax : List ℝ → ℝ
  | [] => 0
  | x :: xs => xs.foldl max x

/-- A raw table cell: either a finite numeric value or a non-numeric token
(anything whose numeric coercion is NaN). -/
inductive JSVal where
  | num : ℝ → JSVal
  | nan : JSVal

/-- JS `parseFloat` as applied after the validity filter: a numeric value
parses to itself.  The `nan` case is unreachable after filtering. -/
def JSVal.toNumber : JSVal → ℝ
  | .num x => x
  | .nan => 0

/-- The validity filter from the source:
`val => val > 0 && val < 3000 && !isNaN(val)`.  A non-numeric value fails
the comparisons (NaN comparisons are false in JS). -/
def jsValid : JSVal → Bool
  | .num x => decide (0 < x) && decide (x < 3000)
  | .nan => false

/-- The validated IBI series:
`ibiData.filter(val => val > 0 && val < 3000 && !isNaN(val)).map(val => parseFloat(val))`. -/
def validIBI (ibiData : List JSVal) : List ℝ :=
  (ibiData.filter jsValid).map JSVal.toNumber

/-- Successive differences: `for (i = 1; i < n; i++) push(v[i] - v[i-1])`. -/
def successiveDiffs (l : List ℝ) : List ℝ :=
  List.zipWith (fun a b => b - a) l l.tail

/-- Result record of `calculateTimeDomainMetrics`. -/
structure TimeDomainMetrics where
  meanNN : ℝ
  sdnn : ℝ
  rmssd : ℝ
  pnn50 : ℝ
  pnn20 : ℝ
  sdsd : ℝ
  meanHR : ℝ
  minHR : ℝ
  maxHR : ℝ

/-- Count of successive differences with `Math.abs(diff) > 50`. -/
def nn50 (diffs : List ℝ) : ℕ :=
  (diffs.filter fun d => decide (50 < |d|)).length

/-- Count of successive differences with `Math.abs(diff) > 20`. -/
def nn20 (diffs : List ℝ) : ℕ :=
  (diffs.filter fun d => decide (20 < |d|)).length

/-- Translation of `calculateTimeDomainMetrics(ibiData, successiveDiffs)`. -/
def calculateTimeDomainMetrics (ibiData successiveDiffs : List ℝ) : TimeDomainMetrics :=
  let n : ℝ := ibiData.length
  let mean := ibiData.sum / n
  let variance := (ibiData.map fun val => (val - mean) ^ 2).sum / (n - 1)
  let sdnn := Real.sqrt variance
  let sumSquaredDiffs := (successiveDiffs.map fun diff => diff * diff).sum
  let rmssd := Real.sqrt (sumSquaredDiffs / successiveDiffs.length)
  let pnn50 := ((nn50 successiveDiffs : ℝ) / successiveDiffs.length) * 100
  let pnn20 := ((nn20 successiveDiffs : ℝ) / successiveDiffs.length) * 100
  let meanDiff := successiveDiffs.sum / successiveDiffs.length
  let sdsd := Real.sqrt ((successiveDiffs.map fun val => (val - meanDiff) ^ 2).sum /
    ((successiveDiffs.length : ℝ) - 1))
  let heartRates := ibiData.map fun ibi => (60000 : ℝ) / ibi
  let meanHR := heartRates.sum / heartRates.length
  let minHR := listMin heartRates
  let maxHR := listMax heartRates
  { meanNN := round2 mean
    sdnn := round2 sdnn
    rmssd := round2 rmssd
    pnn50 := round2 pnn50
    pnn20 := round2 pnn20
    sdsd := round2 sdsd
    meanHR := round1 meanHR
    minHR := round1 minHR
    maxHR := round1 maxHR }

/-- Time-domain metrics as the specification words them, in terms of the
IBI series length n: meanNN = arithmetic mean; SDNN with denominator n−1;
RMSSD = sqrt(sum(diff²)/(n−1)); pNN50/pNN20 = percentage of successive
differences strictly above 50 ms resp. 20 ms; SDSD with denominator n−2;
heart rates 60000/ibi with mean/min/max; interval metrics rounded to 2
decimals, heart-rate metrics to 1 decimal. -/
def specTimeDomainMetrics (l : List ℝ) : TimeDomainMetrics :=
  let n : ℝ := l.length
  let diffs := successiveDiffs l
  let heartRates := l.map fun ibi => (60000 : ℝ) / ibi
  { meanNN := round2 (listMean l)
    sdnn := round2 (Real.sqrt ((l.map fun val => (val - listMean l) ^ 2).sum / (n - 1)))
    rmssd := round2 (Real.sqrt ((diffs.map fun diff => diff * diff).sum / (n - 1)))
    pnn50 := round2 (((nn50 diffs : ℝ) / (n - 1)) * 100)
    pnn20 := round2 (((nn20 diffs : ℝ) / (n - 1)) * 100)
    sdsd := round2 (Real.sqrt ((diffs.map fun val => (val - listMean diffs) ^ 2).sum / (n - 2)))
    meanHR := round1 (listMean heartRates)
    minHR := round1 (listMin heartRates)
    maxHR := round1 (listMax heartRates) }

/-- Result record of `calculatePoincareMetrics`. -/
structure PoincareMetrics where
  sd1 : ℝ
  sd2 : ℝ
  sd1sd2Ratio : ℝ
  ellipseArea : ℝ

/-- Mean of squares, `list.reduce((sum, val) => sum + val * val, 0) / list.length`. -/
def meanSquares (l : List ℝ) : ℝ := (l.map fun v => v * v).sum / l.length

/-- Translation of `calculatePoincareMetrics(successiveDiffs)`: splits the
difference series into `rr1 = slice(0, -1)` and `rr2 = slice(1)`, takes
SD1/SD2 from pairwise differences and sums, and returns `null` when the
series has fewer than 2 elements. -/
def calculatePoincareMetrics (successiveDiffs : List ℝ) : Option PoincareMetrics :=
  if successiveDiffs.length < 2 then none
  else
    let rr1 := successiveDiffs.dropLast
    let rr2 := successiveDiffs.tail
    let diff1 := List.zipWith (fun a b => a - b) rr1 rr2
    let sum1 := List.zipWith (fun a b => a + b) rr1 rr2
    let sd1 := Real.sqrt (meanSquares diff1) / Real.sqrt 2
    let sd2 := Real.sqrt (meanSquares sum1) / Real.sqrt 2
    some { sd1 := round2 sd1
           sd2 := round2 sd2
           sd1sd2Ratio := round3 (sd1 / sd2)
           ellipseArea := (jsRound (Real.pi * sd1 * sd2) : ℝ) }

/-- Poincaré metrics as the specification words them:
SD1 = sqrt(mean(diff1²)/2), SD2 = sqrt(mean(sum1²)/2),
ratio = SD1/SD2, ellipseArea = π×SD1×SD2, with SD1/SD2 rounded to 2
decimals, the ratio to 3 decimals and the area to the nearest integer. -/
def specPoincareMetrics (ds : List ℝ) : PoincareMetrics :=
  let rr1 := ds.dropLast
  let rr2 := ds.tail
  let diff1 := List.zipWith (fun a b => a - b) rr1 rr2
  let sum1 := List.zipWith (fun a b => a + b) rr1 rr2
  let sd1 := Real.sqrt (meanSquares diff1 / 2)
  let sd2 := Real.sqrt (meanSquares sum1 / 2)
  { sd1 := round2 sd1
    sd2 := round2 sd2
    sd1sd2Ratio := round3 (sd1 / sd2)
    ellipseArea := (jsRound (Real.pi * sd1 * sd2) : ℝ) }

/-- Result record of `calculateFrequencyDomainMetrics`. -/
structure FrequencyMetrics where
  totalPower : ℝ
  vlfPower : ℝ
  lfPower : ℝ
  hfPower : ℝ
  lfhfRatio : ℝ
  lfNorm : ℝ
  hfNorm : ℝ

/-- Population variance (denominator n), the source's
`variance = reduce(sum + (val - meanIBI)²) / length`. -/
def popVariance (l : List ℝ) : ℝ :=
  (l.map fun val => (val - listMean l) ^ 2).sum / l.length

/-- The source's `totalPower = variance`. -/
def fdTotalPower (l : List ℝ) : ℝ := popVariance l

/-- The source's `vlfPower = totalPower * 0.3`. -/
def fdVlfPower (l : List ℝ) : ℝ := fdTotalPower l * 0.3

/-- The source's `lfPower = totalPower * 0.4`. -/
def fdLfPower (l : List ℝ) : ℝ := fdTotalPower l * 0.4

/-- The source's `hfPower = totalPower * 0.3`. -/
def fdHfPower (l : List ℝ) : ℝ := fdTotalPower l * 0.3

/-- Translation of `calculateFrequencyDomainMetrics(ibiData)` (the
simplified proportional model wired into the primary path). -/
def calculateFrequencyDomainMetrics (ibiData : List ℝ) : FrequencyMetrics :=
  { totalPower := (jsRound (fdTotalPower ibiData) : ℝ)
    vlfPower := (jsRound (fdVlfPower ibiData) : ℝ)
    lfPower := (jsRound (fdLfPower ibiData) : ℝ)
    hfPower := (jsRound (fdHfPower ibiData) : ℝ)
    lfhfRatio := round2 (fdLfPower ibiData / fdHfPower ibiData)
    lfNorm := round2 ((fdLfPower ibiData / (fdLfPower ibiData + fdHfPower ibiData)) * 100)
    hfNorm := round2 ((fdHfPower ibiData / (fdLfPower ibiData + fdHfPower ibiData)) * 100) }

/-- The LF/HF ratio classification block of `interpretFrequencyDomain`:
`> 4` → high, `> 1.5` → elevated, else good. -/
def lfhfStatus (r : ℝ) : String :=
  if 4 < r then "high" else if 1.5 < r then "elevated" else "good"

/-- Result record of `calculateGeometricMetrics`. -/
structure GeometricMetrics where
  triangularIndex : ℝ
  tinn : ℝ

/-- The fixed histogram bin width, `binWidth = 7.8125` ms. -/
def binWidth : ℝ := 7.8125

/-- Bin key of a value: `Math.floor((val - minVal) / binWidth) * binWidth + minVal`. -/
def binKey (minVal w v : ℝ) : ℝ := (⌊(v - minVal) / w⌋ : ℝ) * w + minVal

/-- The set of keys of the histogram object built by `createHistogram`
(one key per non-empty bin, each occurring once). -/
def histogramKeys (data : List ℝ) (w : ℝ) : List ℝ :=
  (data.map (binKey (listMin data) w)).dedup

/-- Occurrence count stored under one histogram key. -/
def binCount (data : List ℝ) (w k : ℝ) : ℕ :=
  (data.filter fun v => decide (binKey (listMin data) w v = k)).length

/-- The source's `maxBin = Math.max(...Object.values(histogram))`. -/
def maxBin (data : List ℝ) (w : ℝ) : ℕ :=
  ((histogramKeys data w).map (binCount data w)).foldl max 0

/-- The source's `sortedBins = Object.keys(histogram).map(Number).sort((a, b) => a - b)`. -/
def sortedBins (data : List ℝ) (w : ℝ) : List ℝ :=
  (histogramKeys data w).mergeSort fun a b => decide (a ≤ b)

/-- Translation of `calculateGeometricMetrics(ibiData, successiveDiffs)`
(the second parameter is unused in the source). -/
def calculateGeometricMetrics (ibiData successiveDiffs : List ℝ) : GeometricMetrics :=
  let triangularIndex := (ibiData.length : ℝ) / (maxBin ibiData binWidth : ℝ)
  let sb := sortedBins ibiData binWidth
  let tinn := sb.getLastD 0 - sb.headI
  { triangularIndex := round2 triangularIndex
    tinn := round2 tinn }

/-- The raw-data block of the aggregate result.  The source formats
`duration` with `toFixed(1)`; it is modelled as the numeric value rounded
to 1 decimal. -/
structure RawData where
  ibiValues : List ℝ
  successiveDiffs : List ℝ
  sampleCount : ℕ
  duration : ℝ

/-- The aggregate analysis result. -/
structure MetricsResult where
  timeDomain : TimeDomainMetrics
  geometric : GeometricMetrics
  frequency : FrequencyMetrics
  poincare : Option PoincareMetrics
  rawData : RawData

/-- Translation of `calculateAdvancedHRVMetrics(ibiData)`: `null` when the
input has fewer than 10 entries or fewer than 10 entries survive the
validity filter; otherwise the aggregate of all four analyzers. -/
def calculateAdvancedHRVMetrics (ibiData : List JSVal) : Option MetricsResult :=
  if ibiData.length < 10 then none
  else
    let valid := validIBI ibiData
    if valid.length < 10 then none
    else
      let diffs := successiveDiffs valid
      some { timeDomain := calculateTimeDomainMetrics valid diffs
             geometric := calculateGeometricMetrics valid diffs
             frequency := calculateFrequencyDomainMetrics valid
             poincare := calculatePoincareMetrics diffs
             rawData := { ibiValues := valid
                          successiveDiffs := diffs
                          sampleCount := valid.length
                          duration := round1 (valid.sum / 1000) } }

/-- One entry of the quality-engine output. -/
structure Assessment where
  metric : String
  value : ℝ
  status : String
  interpretation : String

/-- The RMSSD branch of `assessHRVQuality`. -/
def rmssdAssessment (td : TimeDomainMetrics) : Assessment :=
  if 50 < td.rmssd then
    { metric := "RMSSD", value := td.rmssd, status := "excellent",
      interpretation := "High parasympathetic activity - excellent recovery capacity" }
  else if 30 < td.rmssd then
    { metric := "RMSSD", value := td.rmssd, status := "good",
      interpretation := "Good parasympathetic activity - healthy recovery" }
  else if 15 < td.rmssd then
    { metric := "RMSSD", value := td.rmssd, status := "fair",
      interpretation := "Moderate parasympathetic activity - consider stress management" }
  else
    { metric := "RMSSD", value := td.rmssd, status := "poor",
      interpretation := "Low parasympathetic activity - may indicate stress or fatigue" }

/-- The SDNN branch of `assessHRVQuality`. -/
def sdnnAssessment (td : TimeDomainMetrics) : Assessment :=
  if 50 < td.sdnn then
    { metric := "SDNN", value := td.sdnn, status := "excellent",
      interpretation := "Excellent overall heart rate variability" }
  else if 30 < td.sdnn then
    { metric := "SDNN", value := td.sdnn, status := "good",
      interpretation := "Good overall heart rate variability" }
  else
    { metric := "SDNN", value := td.sdnn, status := "fair",
      interpretation := "Lower overall variability - focus on recovery practices" }

/-- The SD1/SD2 classification of `assessHRVQuality`: `> 0.5` → good,
else → attention. -/
def sd1sd2Assessment (p : PoincareMetrics) : Assessment :=
  if 0.5 < p.sd1sd2Ratio then
    { metric := "SD1/SD2", value := p.sd1sd2Ratio, status := "good",
      interpretation := "Balanced short-term vs long-term variability" }
  else
    { metric := "SD1/SD2", value := p.sd1sd2Ratio, status := "attention",
      interpretation := "Imbalanced variability pattern - monitor stress levels" }

/-- The Poincaré block of `assessHRVQuality`: the source guards with
`if (poincare && poincare.sd1sd2Ratio)`, so the assessment is pushed only
when the Poincaré result is non-null and its ratio is truthy (nonzero; a
JS NaN ratio is likewise falsy and is subsumed by 0 in the real-number
embedding, since 0/0 = 0 here). -/
def poincareAssessments : Option PoincareMetrics → List Assessment
  | none => []
  | some p => if p.sd1sd2Ratio ≠ 0 then [sd1sd2Assessment p] else []

/-- Translation of `assessHRVQuality(hrvMetrics)`: `null` in, `null` out;
otherwise RMSSD assessment, then SDNN, then the guarded Poincaré block. -/
def assessHRVQuality : Option MetricsResult → Option (List Assessment)
  | none => none
  | some m =>
      some ([rmssdAssessment m.timeDomain, sdnnAssessment m.timeDomain] ++
        poincareAssessments m.poincare)

/-- The assessment list exactly as the claim states it: RMSSD, then SDNN,
then the SD1/SD2 assessment whenever the Poincaré result is present. -/
def claimedAssessments (m : MetricsResult) : List Assessment :=
  [rmssdAssessment m.timeDomain, sdnnAssessment m.timeDomain] ++
    (match m.poincare with
     | none => []
     | some p => [sd1sd2Assessment p])

/-- The assessment list as amended: the SD1/SD2 assessment is emitted only
when the Poincaré result is present and its rounded ratio is nonzero
(truthy). -/
def amendedAssessments (m : MetricsResult) : List Assessment :=
  [rmssdAssessment m.timeDomain, sdnnAssessment m.timeDomain] ++
    (match m.poincare with
     | none => []
     | some p => if p.sd1sd2Ratio = 0 then [] else [sd1sd2Assessment p])

/-- Concrete IBI series from the specification's test scenario (20 samples). -/
def ibiSample : List ℝ :=
  [800, 810, 790, 805, 795, 800, 815, 790, 805, 800,
   798, 802, 796, 804, 799, 801, 797, 803, 800, 802]

/-- A raw input of 12 cells, none of which passes the validity filter. -/
def nanSample : List JSVal := List.replicate 12 JSVal.nan

/-- A two-element series with positive variance, for the frequency-domain
witness. -/
def varSample : List ℝ := [790, 810]

/-- A time-domain record with RMSSD and SDNN in the `good` band, used as a
concrete quality-engine input. -/
def tdGood : TimeDomainMetrics :=
  { meanNN := 800, sdnn := 40, rmssd := 40, pnn50 := 0, pnn20 := 0,
    sdsd := 5, meanHR := 75, minHR := 70, maxHR := 80 }

/-- A Poincaré record with SD1 = 0 and hence ratio 0, as produced by an
IBI series whose successive differences are a nonzero constant. -/
def poincareZeroRatio : PoincareMetrics :=
  { sd1 := 0, sd2 := 7.07, sd1sd2Ratio := 0, ellipseArea := 0 }

/-- A complete aggregate result whose Poincaré block is present but has
ratio 0, for the claim-C4 counterexample. -/
def metricsZeroRatio : MetricsResult :=
  { timeDomain := tdGood
    geometric := { triangularIndex := 2, tinn := 15 }
    frequency := { totalPower := 36, vlfPower := 11, lfPower := 14,
                   hfPower := 11, lfhfRatio := 1.33, lfNorm := 57.14, hfNorm := 42.86 }
    poincare := some poincareZeroRatio
    rawData := { ibiValues := [], successiveDiffs := [], sampleCount := 20, duration := 16 } }

/-- A second ratio-0 Poincaré record, for the claim-C9 witness. -/
def poincareZeroRatioB : PoincareMetrics :=
  { sd1 := 0, sd2 := 3.54, sd1sd2Ratio := 0, ellipseArea := 0 }

/-- A second aggregate result with a present, ratio-0 Poincaré block, for
the claim-C9 witness. -/
def metricsZeroRatioB : MetricsResult :=
  { timeDomain := { meanNN := 800, sdnn := 60, rmssd := 10, pnn50 := 0, pnn20 := 0,
                    sdsd := 5, meanHR := 75, minHR := 70, maxHR := 80 }
    geometric := { triangularIndex := 2, tinn := 15 }
    frequency := { totalPower := 36, vlfPower := 11, lfPower := 14,
                   hfPower := 11, lfhfRatio := 1.33, lfNorm := 57.14, hfNorm := 42.86 }
    poincare := some poincareZeroRatioB
    rawData := { ibiValues := [], successiveDiffs := [], sampleCount := 15, duration := 12 } }

end

/-! ### Helper lemmas -/

/-- The successive-difference series of a series of length n has length n − 1. -/
theorem length_successiveDiffs (l : List ℝ) : (successiveDiffs l).length = l.length - 1 := by
  cases l with
  | nil => rfl
  | cons a t =>
      simp only [successiveDiffs, List.length_zipWith, List.tail_cons, List.length_cons]
      omega

/-- Rounding `jsRound` is monotone. -/
theorem jsRound_mono {x y : ℝ} (h : x ≤ y) : jsRound x ≤ jsRound y :=
  Int.floor_le_floor (by linarith)

/-- Rounding to two decimals is monotone. -/
theorem round2_mono {x y : ℝ} (h : x ≤ y) : round2 x ≤ round2 y := by
  unfold round2
  have h1 : jsRound (x * 100) ≤ jsRound (y * 100) :=
    jsRound_mono (mul_le_mul_of_nonneg_right h (by norm_num))
  exact (div_le_div_iff_of_pos_right (by norm_num : (0:ℝ) < 100)).mpr (Int.cast_le.mpr h1)

/-- Mean of squares is nonnegative. -/
theorem meanSquares_nonneg (l : List ℝ) : 0 ≤ meanSquares l := by
  unfold meanSquares
  apply div_nonneg _ (Nat.cast_nonneg _)
  apply List.sum_nonneg
  intro x hx
  simp only [List.mem_map] at hx
  obtain ⟨v, _, rfl⟩ := hx
  exact mul_self_nonneg v

/-- Halving inside the square root equals dividing the root by √2. -/
theorem sqrt_meanSquares_div_two (l : List ℝ) :
    Real.sqrt (meanSquares l / 2) = Real.sqrt (meanSquares l) / Real.sqrt 2 :=
  Real.sqrt_div (meanSquares_nonneg l) 2

/-- Values surviving the validity filter are strictly between 0 and 3000. -/
theorem mem_validIBI {l : List JSVal} {x : ℝ} (hx : x ∈ validIBI l) :
    0 < x ∧ x < 3000 := by
  unfold validIBI at hx
  simp only [List.mem_map] at hx
  obtain ⟨v, hv, rfl⟩ := hx
  have hval := List.of_mem_filter hv
  cases v with
  | num y =>
      simp only [jsValid, Bool.and_eq_true, decide_eq_true_eq] at hval
      exact hval
  | nan => simp [jsValid] at hval

/-- The 50 ms difference count never exceeds the 20 ms difference count. -/
theorem nn50_le_nn20 (ds : List ℝ) : nn50 ds ≤ nn20 ds := by
  unfold nn50 nn20
  rw [← List.countP_eq_length_filter, ← List.countP_eq_length_filter]
  apply List.countP_mono_left
  intro d _ h
  simp only [decide_eq_true_eq] at h ⊢
  linarith

/-- Folding `min` either returns the start value or an element of the list. -/
theorem foldl_min_choice (xs : List ℝ) : ∀ x : ℝ, xs.foldl min x = x ∨ xs.foldl min x ∈ xs := by
  induction xs with
  | nil => intro x; left; rfl
  | cons y ys ih =>
      intro x
      rcases ih (min x y) with h | h
      · rcases min_choice x y with hc | hc
        · left; rw [List.foldl_cons, h, hc]
        · right; rw [List.foldl_cons, h, hc]; exact List.mem_cons_self _ _
      · right; exact List.mem_cons_of_mem _ h

/-- Folding `min` is below the start value and every element. -/
theorem foldl_min_le (xs : List ℝ) :
    ∀ x : ℝ, xs.foldl min x ≤ x ∧ ∀ z ∈ xs, xs.foldl min x ≤ z := by
  induction xs with
  | nil => intro x; exact ⟨le_refl x, by simp⟩
  | cons y ys ih =>
      intro x
      have h := ih (min x y)
      refine ⟨le_trans h.1 (min_le_left x y), ?_⟩
      intro z hz
      rcases List.mem_cons.mp hz with rfl | hz'
      · exact le_trans h.1 (min_le_right x z)
      · exact h.2 z hz'

/-- Folding `max` either returns the start value or an element of the list. -/
theorem foldl_max_choice (xs : List ℝ) : ∀ x : ℝ, xs.foldl max x = x ∨ xs.foldl max x ∈ xs := by
  induction xs with
  | nil => intro x; left; rfl
  | cons y ys ih =>
      intro x
      rcases ih (max x y) with h | h
      · rcases max_choice x y with hc | hc
        · left; rw [List.foldl_cons, h, hc]
        · right; rw [List.foldl_cons, h, hc]; exact List.mem_cons_self _ _
      · right; exact List.mem_cons_of_mem _ h

/-- Folding `max` is above the start value and every element. -/
theorem le_foldl_max (xs : List ℝ) :
    ∀ x : ℝ, x ≤ xs.foldl max x ∧ ∀ z ∈ xs, z ≤ xs.foldl max x := by
  induction xs with
  | nil => intro x; exact ⟨le_refl x, by simp⟩
  | cons y ys ih =>
      intro x
      have h := ih (max x y)
      refine ⟨le_trans (le_max_left x y) h.1, ?_⟩
      intro z hz
      rcases List.mem_cons.mp hz with rfl | hz'
      · exact le_trans (le_max_right x z) h.1
      · exact h.2 z hz'

/-- The minimum of a nonempty list is an element of it. -/
theorem listMin_mem {l : List ℝ} (h : l ≠ []) : listMin l ∈ l := by
  cases l with
  | nil => exact absurd rfl h
  | cons x xs =>
      show xs.foldl min x ∈ x :: xs
      rcases foldl_min_choice xs x with h1 | h1
      · rw [h1]; exact List.mem_cons_self _ _
      · exact List.mem_cons_of_mem _ h1

/-- The minimum of a list bounds every element from below. -/
theorem listMin_le {l : List ℝ} {z : ℝ} (hz : z ∈ l) : listMin l ≤ z := by
  cases l with
  | nil => simp at hz
  | cons x xs =>
      show xs.foldl min x ≤ z
      rcases List.mem_cons.mp hz with rfl | h
      · exact (foldl_min_le xs z).1
      · exact (foldl_min_le xs x).2 z h

/-- The maximum of a nonempty list is an element of it. -/
theorem listMax_mem {l : List ℝ} (h : l ≠ []) : listMax l ∈ l := by
  cases l with
  | nil => exact absurd rfl h
  | cons x xs =>
      show xs.foldl max x ∈ x :: xs
      rcases foldl_max_choice xs x with h1 | h1
      · rw [h1]; exact List.mem_cons_self _ _
      · exact List.mem_cons_of_mem _ h1

/-- The maximum of a list bounds every element from above. -/
theorem le_listMax {l : List ℝ} {z : ℝ} (hz : z ∈ l) : z ≤ listMax l := by
  cases l with
  | nil => simp at hz
  | cons x xs =>
      show z ≤ xs.foldl max x
      rcases List.mem_cons.mp hz with rfl | h
      · exact (le_foldl_max xs z).1
      · exact (le_foldl_max xs x).2 z h

/-- An element below all elements of a nonempty list is its minimum. -/
theorem listMin_eq_of {l : List ℝ} {a : ℝ} (hne : l ≠ []) (ha : a ∈ l)
    (hlb : ∀ x ∈ l, a ≤ x) : listMin l = a :=
  le_antisymm (listMin_le ha) (hlb _ (listMin_mem hne))

/-- An element above all elements of a nonempty list is its maximum. -/
theorem listMax_eq_of {l : List ℝ} {a : ℝ} (hne : l ≠ []) (ha : a ∈ l)
    (hub : ∀ x ∈ l, x ≤ a) : listMax l = a :=
  le_antisymm (hub _ (listMax_mem hne)) (le_listMax ha)

/-- The head of a nonempty list is an element of it. -/
theorem headI_mem {l : List ℝ} (h : l ≠ []) : l.headI ∈ l := by
  cases l with
  | nil => exact absurd rfl h
  | cons x xs => exact List.mem_cons_self _ _

/-- The head of a list sorted ascending bounds every element from below. -/
theorem sorted_headI_le {s : List ℝ} (hp : s.Pairwise (· ≤ ·)) :
    ∀ x ∈ s, s.headI ≤ x := by
  cases s with
  | nil => intro x hx; simp at hx
  | cons a t =>
      intro x hx
      rcases List.mem_cons.mp hx with rfl | hxt
      · exact le_refl x
      · exact (List.pairwise_cons.mp hp).1 x hxt

/-- The defaulted last element of a nonempty list is an element of it. -/
theorem getLastD_mem (l : List ℝ) : ∀ (d : ℝ), l ≠ [] → l.getLastD d ∈ l := by
  induction l with
  | nil => intro d h; exact absurd rfl h
  | cons x xs ih =>
      intro d _
      rw [List.getLastD_cons]
      cases xs with
      | nil => simp [List.getLastD]
      | cons y ys => exact List.mem_cons_of_mem _ (ih x (by simp))

/-- Every element of a list sorted ascending is below its defaulted last
element. -/
theorem sorted_le_getLastD {s : List ℝ} (hp : s.Pairwise (· ≤ ·)) :
    ∀ (d : ℝ), ∀ x ∈ s, x ≤ s.getLastD d := by
  induction s with
  | nil => intro d x hx; simp at hx
  | cons a t ih =>
      intro d x hx
      rw [List.getLastD_cons]
      have hpc := List.pairwise_cons.mp hp
      rcases List.mem_cons.mp hx with rfl | hxt
      · cases t with
        | nil => exact le_refl x
        | cons b t' =>
            calc x ≤ b := hpc.1 b (List.mem_cons_self _ _)
              _ ≤ (b :: t').getLastD x := by
                  have := ih hpc.2 x b (List.mem_cons_self _ _)
                  exact this
      · exact ih hpc.2 a x hxt

/-- The sorted bin list is sorted ascending. -/
theorem sortedBins_pairwise (data : List ℝ) (w : ℝ) :
    (sortedBins data w).Pairwise (· ≤ ·) := by
  have h := @List.sorted_mergeSort ℝ (fun a b : ℝ => decide (a ≤ b))
    (fun a b c hab hbc => by
      simp only [decide_eq_true_eq] at hab hbc ⊢
      exact le_trans hab hbc)
    (fun a b => by
      simp only [Bool.or_eq_true, decide_eq_true_eq]
      exact le_total a b)
    (histogramKeys data w)
  exact h.imp (fun hab => by simpa using hab)

/-- The sorted bin list is a permutation of the histogram keys. -/
theorem sortedBins_perm (data : List ℝ) (w : ℝ) :
    (sortedBins data w).Perm (histogramKeys data w) :=
  List.mergeSort_perm _ _

/-- A nonempty series yields a nonempty histogram key list. -/
theorem histogramKeys_ne_nil {data : List ℝ} (h : data ≠ []) (w : ℝ) :
    histogramKeys data w ≠ [] := by
  unfold histogramKeys
  rw [Ne, List.dedup_eq_nil, List.map_eq_nil_iff]
  exact h

/-! ### Claim theorems -/

/-- C1: for every validated IBI series of length at least 10 whose paired
difference series is the successive-difference series, the time-domain
analyzer returns exactly the metrics the specification states: meanNN the
arithmetic mean, SDNN with denominator n−1, RMSSD = sqrt(sum(diff²)/(n−1)),
pNN50/pNN20 the percentages of differences strictly above 50 ms resp.
20 ms, SDSD with denominator n−2, and mean/min/max heart rate from
60000/ibi, interval metrics rounded to 2 decimals and heart-rate metrics
to 1 decimal. -/
theorem timeDomain_matches_spec (l diffs : List ℝ) (hn : 10 ≤ l.length)
    (hd : diffs = successiveDiffs l) :
    calculateTimeDomainMetrics l diffs = specTimeDomainMetrics l := by
  subst hd
  have h1 : (1:ℕ) ≤ l.length := le_trans (by norm_num) hn
  have hcast : ((successiveDiffs l).length : ℝ) = (l.length : ℝ) - 1 := by
    rw [length_successiveDiffs, Nat.cast_sub h1, Nat.cast_one]
  have h2 : ((l.length : ℝ) - 1) - 1 = (l.length : ℝ) - 2 := by ring
  simp only [calculateTimeDomainMetrics, specTimeDomainMetrics, listMean, hcast, h2]

/-- C1 witness: the specification's 20-sample scenario satisfies the
hypotheses of `timeDomain_matches_spec`. -/
theorem timeDomain_matches_spec_witness :
    10 ≤ ibiSample.length ∧
    calculateTimeDomainMetrics ibiSample (successiveDiffs ibiSample) =
      specTimeDomainMetrics ibiSample :=
  ⟨by decide, timeDomain_matches_spec ibiSample (successiveDiffs ibiSample) (by decide) rfl⟩

/-- C2: whenever fewer than 10 values pass the validity filter, the whole
analysis returns the absent sentinel `none` (the embedded function is
total, so it never throws, and `none` carries no partial result). -/
theorem insufficient_valid_data_yields_none (l : List JSVal)
    (h : (validIBI l).length < 10) : calculateAdvancedHRVMetrics l = none := by
  unfold calculateAdvancedHRVMetrics
  by_cases h10 : l.length < 10
  · simp [h10]
  · simp [h10, h]

/-- C2 witness: a 12-cell input in which no value passes the filter. -/
theorem insufficient_valid_data_yields_none_witness :
    (validIBI nanSample).length < 10 ∧ calculateAdvancedHRVMetrics nanSample = none :=
  ⟨by decide, insufficient_valid_data_yields_none nanSample (by decide)⟩

/-- C3: the Poincaré analyzer returns `none` for difference series with
fewer than 2 elements, and otherwise exactly the specification's metrics:
SD1 = sqrt(mean(diff1²)/2), SD2 = sqrt(mean(sum1²)/2) over the
rr1/rr2 split, ratio = SD1/SD2, ellipseArea = π·SD1·SD2, with SD1/SD2
rounded to 2 decimals, the ratio to 3 and the area to the nearest
integer. -/
theorem poincare_matches_spec (ds : List ℝ) :
    calculatePoincareMetrics ds =
      if ds.length < 2 then none else some (specPoincareMetrics ds) := by
  by_cases h : ds.length < 2
  · simp [calculatePoincareMetrics, h]
  · simp only [calculatePoincareMetrics, specPoincareMetrics, if_neg h,
      sqrt_meanSquares_div_two]

/-- C5: in the simplified frequency-domain model, totalPower is the
population variance (denominator n) of the series, the band powers are
the 0.3/0.4/0.3 proportional split of it, and the three bands sum to
totalPower exactly, before rounding. -/
theorem frequency_power_split_exact (l : List ℝ) :
    fdTotalPower l = (l.map fun val => (val - listMean l) ^ 2).sum / l.length
    ∧ fdVlfPower l = 0.3 * fdTotalPower l
    ∧ fdLfPower l = 0.4 * fdTotalPower l
    ∧ fdHfPower l = 0.3 * fdTotalPower l
    ∧ fdVlfPower l + fdLfPower l + fdHfPower l = fdTotalPower l := by
  refine ⟨rfl, mul_comm _ _, mul_comm _ _, mul_comm _ _, ?_⟩
  unfold fdVlfPower fdLfPower fdHfPower
  ring

/-- C6: the geometric analyzer, over the histogram with fixed bin width
7.8125 ms and floored bin keys, returns the triangular index
n / (maximum bin count) and TINN = (maximum bin start) − (minimum bin
start) over the non-empty bins, both rounded to 2 decimals. -/
theorem geometric_matches_spec (l sdiffs : List ℝ) (h : 0 < l.length) :
    calculateGeometricMetrics l sdiffs =
      { triangularIndex := round2 ((l.length : ℝ) / (maxBin l binWidth : ℝ)),
        tinn := round2 (listMax (histogramKeys l binWidth) -
          listMin (histogramKeys l binWidth)) } := by
  have hne : l ≠ [] := List.length_pos.mp h
  have hkne : histogramKeys l binWidth ≠ [] := histogramKeys_ne_nil hne _
  have hsne : sortedBins l binWidth ≠ [] := by
    intro hnil
    have hlen := (sortedBins_perm l binWidth).length_eq
    rw [hnil] at hlen
    exact hkne (List.length_eq_zero.mp hlen.symm)
  have hp := sortedBins_pairwise l binWidth
  have hperm := sortedBins_perm l binWidth
  have hhead : (sortedBins l binWidth).headI = listMin (histogramKeys l binWidth) := by
    symm
    apply listMin_eq_of hkne
    · exact hperm.mem_iff.mp (headI_mem hsne)
    · intro x hx
      exact sorted_headI_le hp x (hperm.mem_iff.mpr hx)
  have hlast : (sortedBins l binWidth).getLastD 0 = listMax (histogramKeys l binWidth) := by
    symm
    apply listMax_eq_of hkne
    · exact hperm.mem_iff.mp (getLastD_mem _ 0 hsne)
    · intro x hx
      exact sorted_le_getLastD hp 0 x (hperm.mem_iff.mpr hx)
  simp only [calculateGeometricMetrics]
  rw [hhead, hlast]

/-- C6 witness: the 20-sample scenario is nonempty, so the geometric
analyzer matches the specification on it. -/
theorem geometric_matches_spec_witness :
    0 < ibiSample.length ∧
    calculateGeometricMetrics ibiSample (successiveDiffs ibiSample) =
      { triangularIndex := round2 ((ibiSample.length : ℝ) / (maxBin ibiSample binWidth : ℝ)),
        tinn := round2 (listMax (histogramKeys ibiSample binWidth) -
          listMin (histogramKeys ibiSample binWidth)) } :=
  ⟨by decide, geometric_matches_spec ibiSample (successiveDiffs ibiSample) (by decide)⟩

/-- C7: the count of successive differences exceeding 50 ms never exceeds
the count exceeding 20 ms, and consequently the pNN50 field of the
time-domain result never exceeds the pNN20 field. -/
theorem pnn50_le_pnn20 (ibi diffs : List ℝ) :
    nn50 diffs ≤ nn20 diffs ∧
    (calculateTimeDomainMetrics ibi diffs).pnn50 ≤
      (calculateTimeDomainMetrics ibi diffs).pnn20 := by
  refine ⟨nn50_le_nn20 diffs, ?_⟩
  simp only [calculateTimeDomainMetrics]
  apply round2_mono
  rcases Nat.eq_zero_or_pos diffs.length with h | h
  · simp [h]
  · have hc : (nn50 diffs : ℝ) ≤ (nn20 diffs : ℝ) := Nat.cast_le.mpr (nn50_le_nn20 diffs)
    have hl : (0:ℝ) < diffs.length := by exact_mod_cast h
    exact mul_le_mul_of_nonneg_right ((div_le_div_iff_of_pos_right hl).mpr hc) (by norm_num)

/-- C8: the validation filter is idempotent — re-running it on its own
output (re-wrapped as numeric cells) returns the same series. -/
theorem validator_idempotent (l : List JSVal) :
    validIBI ((validIBI l).map JSVal.num) = validIBI l := by
  show (((validIBI l).map JSVal.num).filter jsValid).map JSVal.toNumber = validIBI l
  rw [List.filter_map, List.map_map]
  have h1 : (JSVal.toNumber ∘ JSVal.num) = id := rfl
  rw [h1, List.map_id]
  apply List.filter_eq_self.mpr
  intro a ha
  have h := mem_validIBI ha
  simp [jsValid, Function.comp, h.1, h.2]

/-- C4 counterexample: a complete result whose Poincaré block is present
but has rounded ratio 0.  The engine omits the SD1/SD2 assessment, while
the claim as stated would emit it (with status attention), so the
claimed output differs from the computed one. -/
theorem assess_quality_claim_counterexample :
    assessHRVQuality (some metricsZeroRatio) ≠ some (claimedAssessments metricsZeroRatio) := by
  have hL : assessHRVQuality (some metricsZeroRatio) =
      some [rmssdAssessment tdGood, sdnnAssessment tdGood] := by
    simp [assessHRVQuality, metricsZeroRatio, poincareAssessments, poincareZeroRatio]
  have hR : claimedAssessments metricsZeroRatio =
      [rmssdAssessment tdGood, sdnnAssessment tdGood, sd1sd2Assessment poincareZeroRatio] := by
    simp [claimedAssessments, metricsZeroRatio]
  rw [hL, hR]
  intro hEq
  simp at hEq

/-- C4 amended: the quality engine returns the RMSSD assessment, then the
SDNN assessment, then the SD1/SD2 assessment only when the Poincaré
result is present AND its rounded ratio is nonzero (truthy), with the
statuses given by the strict greater-than thresholds. -/
theorem assess_quality_amended (m : MetricsResult) :
    assessHRVQuality (some m) = some (amendedAssessments m) := by
  cases hp : m.poincare with
  | none => simp [assessHRVQuality, amendedAssessments, poincareAssessments, hp]
  | some p =>
      by_cases h0 : p.sd1sd2Ratio = 0
      · simp [assessHRVQuality, amendedAssessments, poincareAssessments, hp, h0]
      · simp [assessHRVQuality, amendedAssessments, poincareAssessments, hp, h0]

/-- C9: the SD1/SD2 assessment is emitted only when the rounded ratio is
truthy; with a present Poincaré block whose ratio is 0 (which also covers
the JS NaN of an all-equal series, as 0/0 = 0 in this embedding and NaN
is likewise falsy), the engine returns only the RMSSD and SDNN
assessments. -/
theorem sd1sd2_assessment_omitted_when_ratio_zero (m : MetricsResult)
    (p : PoincareMetrics) (hp : m.poincare = some p) (h0 : p.sd1sd2Ratio = 0) :
    assessHRVQuality (some m) =
      some [rmssdAssessment m.timeDomain, sdnnAssessment m.timeDomain] := by
  simp [assessHRVQuality, poincareAssessments, hp, h0]

/-- C9 witness: a concrete result with a present, ratio-0 Poincaré block
yields exactly the two assessments. -/
theorem sd1sd2_assessment_omitted_when_ratio_zero_witness :
    metricsZeroRatioB.poincare = some poincareZeroRatioB ∧
    poincareZeroRatioB.sd1sd2Ratio = 0 ∧
    assessHRVQuality (some metricsZeroRatioB) =
      some [rmssdAssessment metricsZeroRatioB.timeDomain,
        sdnnAssessment metricsZeroRatioB.timeDomain] :=
  ⟨rfl, rfl, sd1sd2_assessment_omitted_when_ratio_zero metricsZeroRatioB poincareZeroRatioB rfl rfl⟩

/-- C10: for every series with positive population variance, the derived
frequency-domain ratios are input-independent constants — lfhfRatio
rounds to 1.33, lfNorm to 57.14, hfNorm to 42.86 — and hence the LF/HF
interpretation status is the constant good. -/
theorem frequency_ratios_constant (l : List ℝ) (h : 0 < popVariance l) :
    (calculateFrequencyDomainMetrics l).lfhfRatio = 1.33 ∧
    (calculateFrequencyDomainMetrics l).lfNorm = 57.14 ∧
    (calculateFrequencyDomainMetrics l).hfNorm = 42.86 ∧
    lfhfStatus (calculateFrequencyDomainMetrics l).lfhfRatio = "good" := by
  have ht : popVariance l ≠ 0 := ne_of_gt h
  have h3 : popVariance l * 0.3 ≠ 0 := mul_ne_zero ht (by norm_num)
  have h7 : popVariance l * 0.4 + popVariance l * 0.3 ≠ 0 := by
    rw [show popVariance l * 0.4 + popVariance l * 0.3 = popVariance l * 0.7 by ring]
    exact mul_ne_zero ht (by norm_num)
  have h43 : fdLfPower l / fdHfPower l = 4 / 3 := by
    unfold fdLfPower fdHfPower fdTotalPower
    rw [div_eq_div_iff h3 (by norm_num : (3:ℝ) ≠ 0)]
    ring
  have h47 : fdLfPower l / (fdLfPower l + fdHfPower l) = 4 / 7 := by
    unfold fdLfPower fdHfPower fdTotalPower
    rw [div_eq_div_iff h7 (by norm_num : (7:ℝ) ≠ 0)]
    ring
  have h37 : fdHfPower l / (fdLfPower l + fdHfPower l) = 3 / 7 := by
    unfold fdLfPower fdHfPower fdTotalPower
    rw [div_eq_div_iff h7 (by norm_num : (7:ℝ) ≠ 0)]
    ring
  have hratio : (calculateFrequencyDomainMetrics l).lfhfRatio = 1.33 := by
    simp only [calculateFrequencyDomainMetrics, h43]
    unfold round2 jsRound
    norm_num
  refine ⟨hratio, ?_, ?_, ?_⟩
  · simp only [calculateFrequencyDomainMetrics, h47]
    unfold round2 jsRound
    norm_num
  · simp only [calculateFrequencyDomainMetrics, h37]
    unfold round2 jsRound
    norm_num
  · rw [hratio]
    norm_num [lfhfStatus]

/-- C10 witness: the two-element series [790, 810] has population
variance 100 > 0, so all the constant ratios hold for it. -/
theorem frequency_ratios_constant_witness :
    0 < popVariance varSample ∧
    ((calculateFrequencyDomainMetrics varSample).lfhfRatio = 1.33 ∧
     (calculateFrequencyDomainMetrics varSample).lfNorm = 57.14 ∧
     (calculateFrequencyDomainMetrics varSample).hfNorm = 42.86 ∧
     lfhfStatus (calculateFrequencyDomainMetrics varSample).lfhfRatio = "good") := by
  have hv : 0 < popVariance varSample := by
    norm_num [popVariance, listMean, varSample]
  exact ⟨hv, frequency_ratios_constant varSample hv⟩

end HRV
